import Mathlib

/-!
Shallow embedding of the demand-paged virtual-memory simulator in
`src/pages.c`, together with theorems settling the specification claims.

Modelling conventions:
* machine integers become `Nat` (unsigned) or `Int` (the C `int` return
  codes and the `-1` frame sentinel); truncation at call boundaries is
  written explicitly (`% 65536` for the `uint16_t` page number computed
  by the access routines);
* the globals `RAM`, `page_table`, `phys_pages_used` and `stats` become
  the fields of an explicit state record `VMState` threaded through every
  operation;
* `malloc` for a second-level table is modelled as always succeeding
  (`allocate_L2` below); the `NULL` branches of `allocate_L2`/`map_page`
  are therefore never taken in the model;
* an out-parameter (`*out_paddr`, `*out`) becomes an `Option Nat`
  component of the result that is `none` exactly when the C function
  returns without writing it.
-/

namespace VMSim

/-- RAM_SIZE from pages.c: `1 << 20` bytes. -/
def RAM_SIZE : Nat := 1 <<< 20

/-- PAGE_SIZE from pages.c. -/
def PAGE_SIZE : Nat := 4096

/-- NUM_PHYS_PAGES from pages.c: `RAM_SIZE / PAGE_SIZE` = 256. -/
def NUM_PHYS_PAGES : Nat := RAM_SIZE / PAGE_SIZE

/-- L1_ENTRIES from pages.c. -/
def L1_ENTRIES : Nat := 16

/-- L2_ENTRIES from pages.c. -/
def L2_ENTRIES : Nat := 16

/-- PTE_VALID flag bit. -/
def PTE_VALID : Nat := 0x01

/-- PTE_WRITE flag bit. -/
def PTE_WRITE : Nat := 0x02

/-- PTE_READ flag bit. -/
def PTE_READ : Nat := 0x04

/-- An L2 page-table entry: `phys_page` is a C `int` (−1 means absent),
`flags` a `uint8_t` bitset. Mirrors `L2Entry` in pages.c. -/
structure L2Entry where
  phys_page : Int
  flags : Nat
  deriving DecidableEq

/-- The whole mutable state of the simulator: the globals `RAM`,
`page_table`, `phys_pages_used` and `stats` of pages.c. A first-level
slot holds `none` for a NULL pointer, otherwise the second-level table
as a function from the L2 index to the entry. -/
structure VMState where
  ram : Nat → Nat
  page_table : Nat → Option (Nat → L2Entry)
  phys_pages_used : Nat → Bool
  page_faults : Nat
  reads : Nat
  writes : Nat
  translation_failures : Nat

/-- The state of the program at entry to `main`: zero-initialised
globals (C static storage). -/
def initialState : VMState :=
  { ram := fun _ => 0
    page_table := fun _ => none
    phys_pages_used := fun _ => false
    page_faults := 0
    reads := 0
    writes := 0
    translation_failures := 0 }

/-- init_vm from pages.c: memsets the page table, the frame bitmap and
the statistics to zero. `RAM` itself is not cleared. -/
def init_vm (s : VMState) : VMState :=
  { s with
    page_table := fun _ => none
    phys_pages_used := fun _ => false
    page_faults := 0
    reads := 0
    writes := 0
    translation_failures := 0 }

/-- allocate_L2 from pages.c: a freshly malloc'd second-level table with
every entry `{ phys_page = -1, flags = 0 }`. `malloc` is modelled as
always succeeding. -/
def allocate_L2 : Nat → L2Entry :=
  fun _ => { phys_page := -1, flags := 0 }

/-- The scanning loop of allocate_phys_page: starting at index `i` with
`n` indices left to inspect, return the first index whose bitmap slot is
false. -/
def allocScan (used : Nat → Bool) : Nat → Nat → Option Nat
  | _, 0 => none
  | i, n + 1 => if used i then allocScan used (i + 1) n else some i

/-- allocate_phys_page from pages.c: linear scan for the first free
frame; on success mark it used and memset its PAGE_SIZE bytes of RAM to
zero, returning the index; on exhaustion return −1. -/
def allocate_phys_page (s : VMState) : Int × VMState :=
  match allocScan s.phys_pages_used 0 NUM_PHYS_PAGES with
  | some i =>
      (Int.ofNat i,
       { s with
         phys_pages_used := Function.update s.phys_pages_used i true
         ram := fun a => if i * PAGE_SIZE ≤ a ∧ a < i * PAGE_SIZE + PAGE_SIZE then 0 else s.ram a })
  | none => (-1, s)

/-- free_phys_page from pages.c: clear the bitmap slot when the index is
in range, otherwise do nothing. -/
def free_phys_page (s : VMState) (phys_page : Int) : VMState :=
  if 0 ≤ phys_page ∧ phys_page < (NUM_PHYS_PAGES : Int) then
    { s with phys_pages_used := Function.update s.phys_pages_used phys_page.toNat false }
  else s

/-- map_page from pages.c: bounds-check the virtual page and the
physical frame, lazily create the second-level table, store the entry
with PTE_VALID forced on, and mark the frame used. -/
def map_page (s : VMState) (virt_page phys_page flags : Nat) : Int × VMState :=
  if L1_ENTRIES * L2_ENTRIES ≤ virt_page then (-1, s)
  else if NUM_PHYS_PAGES ≤ phys_page then (-1, s)
  else
    let l1 := (virt_page >>> 4) &&& 0xf
    let l2 := virt_page &&& 0xf
    let t := (s.page_table l1).getD allocate_L2
    (0,
     { s with
       page_table :=
         Function.update s.page_table l1
           (some (Function.update t l2
             { phys_page := Int.ofNat phys_page, flags := flags ||| PTE_VALID }))
       phys_pages_used := Function.update s.phys_pages_used phys_page true })

/-- Increment of `stats.translation_failures`, performed by every
failure path of translate. -/
def bump_tf (s : VMState) : VMState :=
  { s with translation_failures := s.translation_failures + 1 }

/-- translate from pages.c. Result: the C return code (0 success, −1
out-of-bounds / miss / defensive check, −2 permission denied), the
out-parameter (`some paddr` only when written) and the state. -/
def translate (s : VMState) (vaddr : Nat) (is_write : Bool) : Int × Option Nat × VMState :=
  if RAM_SIZE ≤ vaddr then (-1, none, bump_tf s)
  else
    let l1 := (vaddr >>> 16) &&& 0xf
    let l2 := (vaddr >>> 12) &&& 0xf
    let off := vaddr &&& 0xfff
    match s.page_table l1 with
    | none => (-1, none, bump_tf s)
    | some t =>
        let entry := t l2
        if entry.phys_page < 0 ∨ entry.flags &&& PTE_VALID = 0 then (-1, none, bump_tf s)
        else if is_write = true ∧ entry.flags &&& PTE_WRITE = 0 then (-2, none, bump_tf s)
        else if is_write = false ∧ entry.flags &&& PTE_READ = 0 then (-2, none, bump_tf s)
        else
          let paddr := entry.phys_page.toNat * PAGE_SIZE + off
          if RAM_SIZE ≤ paddr then (-1, none, bump_tf s)
          else (0, some paddr, s)

/-- Mirrors the guard structure of translate and returns `true` exactly
when control reaches the defensive `paddr >= RAM_SIZE` branch (lines
156–160 of pages.c), i.e. when translate fails with the
InternalInconsistency outcome of the specification. -/
def translateDefensive (s : VMState) (vaddr : Nat) (is_write : Bool) : Bool :=
  if RAM_SIZE ≤ vaddr then false
  else
    let l1 := (vaddr >>> 16) &&& 0xf
    let l2 := (vaddr >>> 12) &&& 0xf
    let off := vaddr &&& 0xfff
    match s.page_table l1 with
    | none => false
    | some t =>
        let entry := t l2
        if entry.phys_page < 0 ∨ entry.flags &&& PTE_VALID = 0 then false
        else if is_write = true ∧ entry.flags &&& PTE_WRITE = 0 then false
        else if is_write = false ∧ entry.flags &&& PTE_READ = 0 then false
        else decide (RAM_SIZE ≤ entry.phys_page.toNat * PAGE_SIZE + off)

/-- unmap_page from pages.c: bounds-check, error when the second-level
table is absent, otherwise free the referenced frame (when `>= 0`) and
clear the entry. -/
def unmap_page (s : VMState) (virt_page : Nat) : Int × VMState :=
  if L1_ENTRIES * L2_ENTRIES ≤ virt_page then (-1, s)
  else
    let l1 := (virt_page >>> 4) &&& 0xf
    let l2 := virt_page &&& 0xf
    match s.page_table l1 with
    | none => (-1, s)
    | some t =>
        let s1 := if 0 ≤ (t l2).phys_page then free_phys_page s (t l2).phys_page else s
        (0,
         { s1 with
           page_table :=
             Function.update s1.page_table l1
               (some (Function.update t l2 { phys_page := -1, flags := 0 })) })

/-- page_fault_handler from pages.c: bump `page_faults`, grab a frame,
and on success install a READ|WRITE mapping via map_page. -/
def page_fault_handler (s : VMState) (virt_page : Nat) : Int × VMState :=
  let s1 := { s with page_faults := s.page_faults + 1 }
  match allocate_phys_page s1 with
  | (pp, s2) =>
      if pp < 0 then (-1, s2)
      else map_page s2 virt_page pp.toNat (PTE_READ ||| PTE_WRITE)

/-- write_vmem from pages.c: translate; on return code −1 run the fault
handler on `vaddr >> 12` (truncated to uint16) and retranslate once; on
ultimate success store the byte and bump `writes`. -/
def write_vmem (s : VMState) (vaddr val : Nat) : Int × VMState :=
  match translate s vaddr true with
  | (res, po, s1) =>
      if res = -1 then
        match page_fault_handler s1 ((vaddr >>> 12) % 65536) with
        | (h, s2) =>
            if h ≠ 0 then (-1, s2)
            else
              match translate s2 vaddr true with
              | (res2, po2, s3) =>
                  if res2 ≠ 0 then (-1, s3)
                  else
                    (0, { s3 with
                          ram := Function.update s3.ram (po2.getD 0) val
                          writes := s3.writes + 1 })
      else if res ≠ 0 then (-1, s1)
      else
        (0, { s1 with
              ram := Function.update s1.ram (po.getD 0) val
              writes := s1.writes + 1 })

/-- read_vmem from pages.c: same retry protocol with read intent; on
ultimate success return the byte through the out-parameter and bump
`reads`. -/
def read_vmem (s : VMState) (vaddr : Nat) : Int × Option Nat × VMState :=
  match translate s vaddr false with
  | (res, po, s1) =>
      if res = -1 then
        match page_fault_handler s1 ((vaddr >>> 12) % 65536) with
        | (h, s2) =>
            if h ≠ 0 then (-1, none, s2)
            else
              match translate s2 vaddr false with
              | (res2, po2, s3) =>
                  if res2 ≠ 0 then (-1, none, s3)
                  else
                    (0, some (s3.ram (po2.getD 0)),
                     { s3 with reads := s3.reads + 1 })
      else if res ≠ 0 then (-1, none, s1)
      else
        (0, some (s1.ram (po.getD 0)),
         { s1 with reads := s1.reads + 1 })

/-- free_pages from pages.c (the teardown): release every second-level
table, leaving the frame bitmap, RAM and statistics untouched. -/
def free_pages (s : VMState) : VMState :=
  { s with page_table := fun i => if i < L1_ENTRIES then none else s.page_table i }

/-- Every installed second-level entry records a physical page below
NUM_PHYS_PAGES. -/
def GoodState (s : VMState) : Prop :=
  ∀ i t, s.page_table i = some t → ∀ j, (t j).phys_page < (NUM_PHYS_PAGES : Int)

/-- States reachable from a re-initialisation through the public
operations of pages.c. -/
inductive Reachable : VMState → Prop where
  | init (s : VMState) : Reachable (init_vm s)
  | map (s : VMState) (v f fl : Nat) (h : Reachable s) : Reachable (map_page s v f fl).2
  | unmap (s : VMState) (v : Nat) (h : Reachable s) : Reachable (unmap_page s v).2
  | readv (s : VMState) (a : Nat) (h : Reachable s) : Reachable (read_vmem s a).2.2
  | writev (s : VMState) (a b : Nat) (h : Reachable s) : Reachable (write_vmem s a b).2
  | transl (s : VMState) (a : Nat) (w : Bool) (h : Reachable s) : Reachable (translate s a w).2.2
  | teardown (s : VMState) (h : Reachable s) : Reachable (free_pages s)

/-- Componentwise order on the four statistics counters. -/
def countersLe (a b : VMState) : Prop :=
  a.page_faults ≤ b.page_faults ∧ a.reads ≤ b.reads ∧ a.writes ≤ b.writes ∧
    a.translation_failures ≤ b.translation_failures

/-! ### Arithmetic helpers -/

theorem RAM_SIZE_eq : RAM_SIZE = 1048576 := rfl

theorem NUM_PHYS_PAGES_eq : NUM_PHYS_PAGES = 256 := rfl

theorem and_fifteen (n : Nat) : n &&& 15 = n % 16 := by
  have h := Nat.and_pow_two_sub_one_eq_mod n 4
  norm_num at h
  exact h

theorem and_fff (n : Nat) : n &&& 4095 = n % 4096 := by
  have h := Nat.and_pow_two_sub_one_eq_mod n 12
  norm_num at h
  exact h

/-! ### Shape of translate

Every run of translate either fails with code −1 or −2, writes nothing
through the out-parameter and only bumps `translation_failures`, or
succeeds with code 0, an in-bounds physical address and a completely
unchanged state. -/

theorem translate_cases (s : VMState) (vaddr : Nat) (w : Bool) :
    (∃ c : Int, (c = -1 ∨ c = -2) ∧ translate s vaddr w = (c, none, bump_tf s)) ∨
      ∃ p, p < RAM_SIZE ∧ translate s vaddr w = (0, some p, s) := by
  simp only [translate]
  split
  · exact Or.inl ⟨-1, Or.inl rfl, rfl⟩
  · split
    · exact Or.inl ⟨-1, Or.inl rfl, rfl⟩
    · split
      · exact Or.inl ⟨-1, Or.inl rfl, rfl⟩
      · split
        · exact Or.inl ⟨-2, Or.inr rfl, rfl⟩
        · split
          · exact Or.inl ⟨-2, Or.inr rfl, rfl⟩
          · split
            · exact Or.inl ⟨-1, Or.inl rfl, rfl⟩
            · next hp => exact Or.inr ⟨_, by omega, rfl⟩

theorem translate_pt (s : VMState) (vaddr : Nat) (w : Bool) :
    (translate s vaddr w).2.2.page_table = s.page_table := by
  rcases translate_cases s vaddr w with ⟨c, _, h⟩ | ⟨p, _, h⟩ <;> simp [h, bump_tf]

theorem translate_used (s : VMState) (vaddr : Nat) (w : Bool) :
    (translate s vaddr w).2.2.phys_pages_used = s.phys_pages_used := by
  rcases translate_cases s vaddr w with ⟨c, _, h⟩ | ⟨p, _, h⟩ <;> simp [h, bump_tf]

theorem translate_ram (s : VMState) (vaddr : Nat) (w : Bool) :
    (translate s vaddr w).2.2.ram = s.ram := by
  rcases translate_cases s vaddr w with ⟨c, _, h⟩ | ⟨p, _, h⟩ <;> simp [h, bump_tf]

theorem translate_pf (s : VMState) (vaddr : Nat) (w : Bool) :
    (translate s vaddr w).2.2.page_faults = s.page_faults := by
  rcases translate_cases s vaddr w with ⟨c, _, h⟩ | ⟨p, _, h⟩ <;> simp [h, bump_tf]

theorem translate_reads (s : VMState) (vaddr : Nat) (w : Bool) :
    (translate s vaddr w).2.2.reads = s.reads := by
  rcases translate_cases s vaddr w with ⟨c, _, h⟩ | ⟨p, _, h⟩ <;> simp [h, bump_tf]

theorem translate_writes (s : VMState) (vaddr : Nat) (w : Bool) :
    (translate s vaddr w).2.2.writes = s.writes := by
  rcases translate_cases s vaddr w with ⟨c, _, h⟩ | ⟨p, _, h⟩ <;> simp [h, bump_tf]

theorem translate_tf_le (s : VMState) (vaddr : Nat) (w : Bool) :
    s.translation_failures ≤ (translate s vaddr w).2.2.translation_failures := by
  rcases translate_cases s vaddr w with ⟨c, _, h⟩ | ⟨p, _, h⟩ <;> simp [h, bump_tf]

/-! ### State-preservation facts for the small operations -/

theorem allocate_pt (s : VMState) :
    (allocate_phys_page s).2.page_table = s.page_table := by
  unfold allocate_phys_page
  split <;> rfl

theorem allocate_counters (s : VMState) :
    (allocate_phys_page s).2.page_faults = s.page_faults ∧
      (allocate_phys_page s).2.reads = s.reads ∧
      (allocate_phys_page s).2.writes = s.writes ∧
      (allocate_phys_page s).2.translation_failures = s.translation_failures := by
  unfold allocate_phys_page
  split <;> exact ⟨rfl, rfl, rfl, rfl⟩

theorem map_page_counters (s : VMState) (v f fl : Nat) :
    (map_page s v f fl).2.page_faults = s.page_faults ∧
      (map_page s v f fl).2.reads = s.reads ∧
      (map_page s v f fl).2.writes = s.writes ∧
      (map_page s v f fl).2.translation_failures = s.translation_failures := by
  unfold map_page
  split
  · exact ⟨rfl, rfl, rfl, rfl⟩
  · split <;> exact ⟨rfl, rfl, rfl, rfl⟩

theorem map_page_ram (s : VMState) (v f fl : Nat) :
    (map_page s v f fl).2.ram = s.ram := by
  unfold map_page
  split
  · rfl
  · split <;> rfl

theorem unmap_page_counters (s : VMState) (v : Nat) :
    (unmap_page s v).2.page_faults = s.page_faults ∧
      (unmap_page s v).2.reads = s.reads ∧
      (unmap_page s v).2.writes = s.writes ∧
      (unmap_page s v).2.translation_failures = s.translation_failures := by
  simp only [unmap_page, free_phys_page]
  split
  · exact ⟨rfl, rfl, rfl, rfl⟩
  · split
    · exact ⟨rfl, rfl, rfl, rfl⟩
    · split
      · split
        · exact ⟨rfl, rfl, rfl, rfl⟩
        · exact ⟨rfl, rfl, rfl, rfl⟩
      · exact ⟨rfl, rfl, rfl, rfl⟩

theorem handler_counters (s : VMState) (vp : Nat) :
    (page_fault_handler s vp).2.page_faults = s.page_faults + 1 ∧
      (page_fault_handler s vp).2.reads = s.reads ∧
      (page_fault_handler s vp).2.writes = s.writes ∧
      (page_fault_handler s vp).2.translation_failures = s.translation_failures := by
  simp only [page_fault_handler]
  rcases hA : allocate_phys_page { s with page_faults := s.page_faults + 1 } with ⟨pp, s2⟩
  have hc := allocate_counters { s with page_faults := s.page_faults + 1 }
  rw [hA] at hc
  have hm := map_page_counters s2 vp pp.toNat (PTE_READ ||| PTE_WRITE)
  split
  · exact ⟨hc.1, hc.2.1, hc.2.2.1, hc.2.2.2⟩
  · exact ⟨by rw [hm.1, hc.1], by rw [hm.2.1, hc.2.1],
      by rw [hm.2.2.1, hc.2.2.1], by rw [hm.2.2.2, hc.2.2.2]⟩

/-! ### Outcome characterisations of translate -/

theorem translate_hit (s : VMState) (vaddr : Nat) (w : Bool) (t : Nat → L2Entry)
    (hv : vaddr < RAM_SIZE)
    (ht : s.page_table ((vaddr >>> 16) &&& 0xf) = some t)
    (hpp : 0 ≤ (t ((vaddr >>> 12) &&& 0xf)).phys_page)
    (hb : (t ((vaddr >>> 12) &&& 0xf)).phys_page < (NUM_PHYS_PAGES : Int))
    (hw : w = true → (t ((vaddr >>> 12) &&& 0xf)).flags &&& PTE_WRITE ≠ 0)
    (hr : w = false → (t ((vaddr >>> 12) &&& 0xf)).flags &&& PTE_READ ≠ 0)
    (hvld : (t ((vaddr >>> 12) &&& 0xf)).flags &&& PTE_VALID ≠ 0) :
    translate s vaddr w =
      ((0 : Int),
       some ((t ((vaddr >>> 12) &&& 0xf)).phys_page.toNat * PAGE_SIZE + (vaddr &&& 0xfff)), s) := by
  have hnv : ¬ RAM_SIZE ≤ vaddr := not_le.mpr hv
  have hoff : vaddr &&& 0xfff < 4096 := by rw [and_fff]; omega
  have hpn : (t ((vaddr >>> 12) &&& 0xf)).phys_page.toNat < 256 := by
    rw [NUM_PHYS_PAGES_eq] at hb; omega
  simp only [translate]
  rw [if_neg hnv]
  simp only [ht]
  split
  · next hc =>
    exfalso
    rcases hc with h | h
    · omega
    · exact hvld h
  · split
    · next hc => exact absurd hc.2 (hw hc.1)
    · split
      · next hc => exact absurd hc.2 (hr hc.1)
      · split
        · next hc => rw [RAM_SIZE_eq, PAGE_SIZE] at hc; omega
        · rfl

theorem translate_miss (s : VMState) (vaddr : Nat) (w : Bool)
    (hv : vaddr < RAM_SIZE)
    (hmiss : s.page_table ((vaddr >>> 16) &&& 0xf) = none ∨
      ∃ t, s.page_table ((vaddr >>> 16) &&& 0xf) = some t ∧
        ((t ((vaddr >>> 12) &&& 0xf)).phys_page < 0 ∨
          (t ((vaddr >>> 12) &&& 0xf)).flags &&& PTE_VALID = 0)) :
    translate s vaddr w = (-1, none, bump_tf s) := by
  have hnv : ¬ RAM_SIZE ≤ vaddr := not_le.mpr hv
  rcases hmiss with h | ⟨t, ht, hinv⟩
  · simp only [translate]
    rw [if_neg hnv]
    simp only [h]
  · simp only [translate]
    rw [if_neg hnv]
    simp only [ht]
    split
    · rfl
    · next hc =>
      exfalso
      rcases hinv with h | h
      · exact hc (Or.inl (by omega))
      · exact hc (Or.inr h)

theorem translate_denied (s : VMState) (vaddr : Nat) (w : Bool) (t : Nat → L2Entry)
    (hv : vaddr < RAM_SIZE)
    (ht : s.page_table ((vaddr >>> 16) &&& 0xf) = some t)
    (hpp : 0 ≤ (t ((vaddr >>> 12) &&& 0xf)).phys_page)
    (hvld : (t ((vaddr >>> 12) &&& 0xf)).flags &&& PTE_VALID ≠ 0)
    (hden : (w = true ∧ (t ((vaddr >>> 12) &&& 0xf)).flags &&& PTE_WRITE = 0) ∨
      (w = false ∧ (t ((vaddr >>> 12) &&& 0xf)).flags &&& PTE_READ = 0)) :
    translate s vaddr w = (-2, none, bump_tf s) := by
  have hnv : ¬ RAM_SIZE ≤ vaddr := not_le.mpr hv
  simp only [translate]
  rw [if_neg hnv]
  simp only [ht]
  split
  · next hc =>
    exfalso
    rcases hc with h | h
    · omega
    · exact hvld h
  · split
    · rfl
    · split
      · rfl
      · next h2 h3 =>
        rcases hden with ⟨hw', hd⟩ | ⟨hw', hd⟩
        · exact absurd ⟨hw', hd⟩ h2
        · exact absurd ⟨hw', hd⟩ h3

/-! ### The allocator scan -/

theorem allocScan_some_spec (u : Nat → Bool) :
    ∀ n i j, allocScan u i n = some j →
      u j = false ∧ i ≤ j ∧ j < i + n ∧ ∀ k, i ≤ k → k < j → u k = true := by
  intro n
  induction n with
  | zero => intro i j h; exact absurd h (by simp [allocScan])
  | succ n ih =>
    intro i j h
    simp only [allocScan] at h
    by_cases hu : u i
    · rw [if_pos hu] at h
      obtain ⟨h1, h2, h3, h4⟩ := ih (i + 1) j h
      refine ⟨h1, by omega, by omega, fun k hk1 hk2 => ?_⟩
      by_cases hk : k = i
      · rw [hk]; exact hu
      · exact h4 k (by omega) hk2
    · rw [if_neg hu] at h
      injection h with h'
      subst h'
      exact ⟨by simpa using hu, Nat.le_refl _, by omega,
        fun k hk1 hk2 => absurd hk2 (by omega)⟩

theorem allocScan_none_spec (u : Nat → Bool) :
    ∀ n i, allocScan u i n = none → ∀ k, i ≤ k → k < i + n → u k = true := by
  intro n
  induction n with
  | zero => intro i _ k hk1 hk2; omega
  | succ n ih =>
    intro i h k hk1 hk2
    simp only [allocScan] at h
    by_cases hu : u i
    · rw [if_pos hu] at h
      by_cases hk : k = i
      · rw [hk]; exact hu
      · exact ih (i + 1) h k (by omega) (by omega)
    · rw [if_neg hu] at h
      exact absurd h (by simp)

theorem allocScan_total (u : Nat → Bool) (n i : Nat)
    (hex : ∃ k, i ≤ k ∧ k < i + n ∧ u k = false) :
    ∃ j, allocScan u i n = some j := by
  cases hA : allocScan u i n with
  | none =>
    obtain ⟨k, h1, h2, h3⟩ := hex
    rw [allocScan_none_spec u n i hA k h1 h2] at h3
    exact Bool.noConfusion h3
  | some j => exact ⟨j, rfl⟩

/-! ### Success characterisations of the allocator, map_page and the
fault handler -/

theorem allocate_success (s : VMState)
    (hfree : ∃ k, k < NUM_PHYS_PAGES ∧ s.phys_pages_used k = false) :
    ∃ j, j < NUM_PHYS_PAGES ∧ s.phys_pages_used j = false ∧
      (∀ k, k < j → s.phys_pages_used k = true) ∧
      allocate_phys_page s =
        (Int.ofNat j,
         { s with
           phys_pages_used := Function.update s.phys_pages_used j true
           ram := fun a =>
             if j * PAGE_SIZE ≤ a ∧ a < j * PAGE_SIZE + PAGE_SIZE then 0 else s.ram a }) := by
  obtain ⟨k, hk, hku⟩ := hfree
  obtain ⟨j, hA⟩ := allocScan_total s.phys_pages_used NUM_PHYS_PAGES 0 ⟨k, by omega, by omega, hku⟩
  obtain ⟨h1, _, h3, h4⟩ := allocScan_some_spec s.phys_pages_used NUM_PHYS_PAGES 0 j hA
  refine ⟨j, by omega, h1, fun k' hk' => h4 k' (by omega) hk', ?_⟩
  unfold allocate_phys_page
  rw [hA]

theorem allocate_exhausted (s : VMState)
    (hall : ∀ k, k < NUM_PHYS_PAGES → s.phys_pages_used k = true) :
    allocate_phys_page s = (-1, s) := by
  unfold allocate_phys_page
  cases hA : allocScan s.phys_pages_used 0 NUM_PHYS_PAGES with
  | none => rfl
  | some j =>
    obtain ⟨h1, _, h3, _⟩ := allocScan_some_spec s.phys_pages_used NUM_PHYS_PAGES 0 j hA
    rw [hall j (by omega)] at h1
    exact Bool.noConfusion h1

theorem map_page_success (s : VMState) (v f fl : Nat)
    (hv : v < L1_ENTRIES * L2_ENTRIES) (hf : f < NUM_PHYS_PAGES) :
    map_page s v f fl =
      (0,
       { s with
         page_table :=
           Function.update s.page_table ((v >>> 4) &&& 0xf)
             (some (Function.update ((s.page_table ((v >>> 4) &&& 0xf)).getD allocate_L2)
               (v &&& 0xf) { phys_page := Int.ofNat f, flags := fl ||| PTE_VALID }))
         phys_pages_used := Function.update s.phys_pages_used f true }) := by
  unfold map_page
  rw [if_neg (not_le.mpr hv), if_neg (not_le.mpr hf)]

theorem handler_success (s : VMState) (vp : Nat)
    (hvp : vp < L1_ENTRIES * L2_ENTRIES)
    (hfree : ∃ k, k < NUM_PHYS_PAGES ∧ s.phys_pages_used k = false) :
    ∃ j st, j < NUM_PHYS_PAGES ∧ page_fault_handler s vp = (0, st) ∧
      (∃ t, st.page_table ((vp >>> 4) &&& 0xf) = some t ∧
        t (vp &&& 0xf) =
          { phys_page := Int.ofNat j, flags := (PTE_READ ||| PTE_WRITE) ||| PTE_VALID }) ∧
      st.page_faults = s.page_faults + 1 ∧ st.reads = s.reads ∧ st.writes = s.writes ∧
      st.translation_failures = s.translation_failures := by
  simp only [page_fault_handler]
  obtain ⟨j, hj, _, _, hA⟩ :=
    allocate_success { s with page_faults := s.page_faults + 1 } hfree
  simp only [hA]
  split
  · next hc => exact absurd hc (not_lt.mpr (Int.natCast_nonneg j))
  · rw [show (Int.ofNat j).toNat = j from rfl]
    rw [map_page_success _ vp j _ hvp hj]
    exact ⟨j, _, hj, rfl, ⟨_, Function.update_same _ _ _, Function.update_same _ _ _⟩,
      rfl, rfl, rfl, rfl⟩

/-! ### Address-decomposition facts -/

theorem same_page_l1 (a b : Nat) (h : a >>> 12 = b >>> 12) :
    (a >>> 16) &&& 15 = (b >>> 16) &&& 15 := by
  rw [and_fifteen, and_fifteen]
  omega

theorem vp_l1 (vaddr : Nat) :
    ((vaddr >>> 12) >>> 4) &&& 15 = (vaddr >>> 16) &&& 15 := by
  rw [and_fifteen, and_fifteen]
  omega

theorem vp_small (vaddr : Nat) (hv : vaddr < RAM_SIZE) :
    (vaddr >>> 12) % 65536 = vaddr >>> 12 := by
  rw [RAM_SIZE_eq] at hv
  exact Nat.mod_eq_of_lt (by omega)

/-! ### Hit behaviour of the access routines -/

theorem write_vmem_hit (s : VMState) (vaddr val : Nat) (t : Nat → L2Entry)
    (hv : vaddr < RAM_SIZE)
    (ht : s.page_table ((vaddr >>> 16) &&& 0xf) = some t)
    (hpp : 0 ≤ (t ((vaddr >>> 12) &&& 0xf)).phys_page)
    (hb : (t ((vaddr >>> 12) &&& 0xf)).phys_page < (NUM_PHYS_PAGES : Int))
    (hw : (t ((vaddr >>> 12) &&& 0xf)).flags &&& PTE_WRITE ≠ 0)
    (hvld : (t ((vaddr >>> 12) &&& 0xf)).flags &&& PTE_VALID ≠ 0) :
    write_vmem s vaddr val =
      ((0 : Int),
       { s with
         ram := Function.update s.ram
           ((t ((vaddr >>> 12) &&& 0xf)).phys_page.toNat * PAGE_SIZE + (vaddr &&& 0xfff)) val
         writes := s.writes + 1 }) := by
  have hT := translate_hit s vaddr true t hv ht hpp hb (fun _ => hw) (fun h => Bool.noConfusion h) hvld
  simp [write_vmem, hT]

theorem read_vmem_hit (s : VMState) (vaddr : Nat) (t : Nat → L2Entry)
    (hv : vaddr < RAM_SIZE)
    (ht : s.page_table ((vaddr >>> 16) &&& 0xf) = some t)
    (hpp : 0 ≤ (t ((vaddr >>> 12) &&& 0xf)).phys_page)
    (hb : (t ((vaddr >>> 12) &&& 0xf)).phys_page < (NUM_PHYS_PAGES : Int))
    (hr : (t ((vaddr >>> 12) &&& 0xf)).flags &&& PTE_READ ≠ 0)
    (hvld : (t ((vaddr >>> 12) &&& 0xf)).flags &&& PTE_VALID ≠ 0) :
    read_vmem s vaddr =
      ((0 : Int),
       some (s.ram ((t ((vaddr >>> 12) &&& 0xf)).phys_page.toNat * PAGE_SIZE + (vaddr &&& 0xfff))),
       { s with reads := s.reads + 1 }) := by
  have hT := translate_hit s vaddr false t hv ht hpp hb (fun h => Bool.noConfusion h) (fun _ => hr) hvld
  simp [read_vmem, hT]

/-! ### Successful fault-and-retry of write_vmem on a miss -/

theorem write_vmem_miss_success (s : VMState) (vaddr val : Nat)
    (hv : vaddr < RAM_SIZE)
    (hmiss : s.page_table ((vaddr >>> 16) &&& 0xf) = none ∨
      ∃ t, s.page_table ((vaddr >>> 16) &&& 0xf) = some t ∧
        ((t ((vaddr >>> 12) &&& 0xf)).phys_page < 0 ∨
          (t ((vaddr >>> 12) &&& 0xf)).flags &&& PTE_VALID = 0))
    (hfree : ∃ k, k < NUM_PHYS_PAGES ∧ s.phys_pages_used k = false) :
    ∃ st, write_vmem s vaddr val = ((0 : Int), st) ∧
      st.page_faults = s.page_faults + 1 ∧
      ∃ j t, j < NUM_PHYS_PAGES ∧
        st.page_table ((vaddr >>> 16) &&& 0xf) = some t ∧
        t ((vaddr >>> 12) &&& 0xf) =
          { phys_page := Int.ofNat j, flags := (PTE_READ ||| PTE_WRITE) ||| PTE_VALID } := by
  have hT := translate_miss s vaddr true hv hmiss
  have hvp256 : (vaddr >>> 12) % 65536 < L1_ENTRIES * L2_ENTRIES := by
    rw [vp_small vaddr hv]
    rw [RAM_SIZE_eq] at hv
    show vaddr >>> 12 < 256
    omega
  obtain ⟨j, st2, hj, hH, ⟨t2, hpt2, hent2⟩, hpf2, _, _, _⟩ :=
    handler_success (bump_tf s) ((vaddr >>> 12) % 65536) hvp256 hfree
  rw [vp_small vaddr hv, vp_l1 vaddr] at hpt2
  rw [vp_small vaddr hv] at hent2
  have hT2 := translate_hit st2 vaddr true t2 hv hpt2
    (by rw [hent2]; exact Int.natCast_nonneg j)
    (by rw [hent2]; show Int.ofNat j < (NUM_PHYS_PAGES : Int); exact Int.ofNat_lt.mpr hj)
    (fun _ => by
      rw [hent2]; show ((PTE_READ ||| PTE_WRITE) ||| PTE_VALID) &&& PTE_WRITE ≠ 0; decide)
    (fun h => Bool.noConfusion h)
    (by rw [hent2]; show ((PTE_READ ||| PTE_WRITE) ||| PTE_VALID) &&& PTE_VALID ≠ 0; decide)
  simp only [write_vmem, hT, hH, hT2]
  norm_num
  exact ⟨by rw [hpf2]; rfl, j, hj, t2, hpt2, hent2⟩

/-! ### The retry protocol always faults exactly once when the first
translation returns code −1 -/

theorem write_vmem_retry_pf (s : VMState) (vaddr val : Nat)
    (h : (translate s vaddr true).1 = -1) :
    (write_vmem s vaddr val).2.page_faults = s.page_faults + 1 := by
  rcases translate_cases s vaddr true with ⟨c, _, heq⟩ | ⟨p, _, heq⟩
  · rw [heq] at h
    simp only at h
    subst h
    simp only [write_vmem, heq]
    simp only [if_true]
    rcases hH : page_fault_handler (bump_tf s) ((vaddr >>> 12) % 65536) with ⟨hc, s2⟩
    have hpf := (handler_counters (bump_tf s) ((vaddr >>> 12) % 65536)).1
    rw [hH] at hpf
    simp only [hH]
    split
    · exact hpf
    · rcases hT2 : translate s2 vaddr true with ⟨r2, po2, s3⟩
      have hpf3 := translate_pf s2 vaddr true
      rw [hT2] at hpf3
      simp only [hT2]
      split
      · rw [hpf3, hpf]; rfl
      · show s3.page_faults = s.page_faults + 1
        rw [hpf3, hpf]; rfl
  · rw [heq] at h
    simp only at h
    exact absurd h (by decide)

theorem read_vmem_retry_pf (s : VMState) (vaddr : Nat)
    (h : (translate s vaddr false).1 = -1) :
    (read_vmem s vaddr).2.2.page_faults = s.page_faults + 1 := by
  rcases translate_cases s vaddr false with ⟨c, _, heq⟩ | ⟨p, _, heq⟩
  · rw [heq] at h
    simp only at h
    subst h
    simp only [read_vmem, heq]
    simp only [if_true]
    rcases hH : page_fault_handler (bump_tf s) ((vaddr >>> 12) % 65536) with ⟨hc, s2⟩
    have hpf := (handler_counters (bump_tf s) ((vaddr >>> 12) % 65536)).1
    rw [hH] at hpf
    simp only [hH]
    split
    · exact hpf
    · rcases hT2 : translate s2 vaddr false with ⟨r2, po2, s3⟩
      have hpf3 := translate_pf s2 vaddr false
      rw [hT2] at hpf3
      simp only [hT2]
      split
      · rw [hpf3, hpf]; rfl
      · show s3.page_faults = s.page_faults + 1
        rw [hpf3, hpf]; rfl
  · rw [heq] at h
    simp only at h
    exact absurd h (by decide)

/-! ### The page-table bound invariant and reachability -/

theorem goodState_of_pt (s s' : VMState) (h : s'.page_table = s.page_table)
    (hg : GoodState s) : GoodState s' := by
  intro i t hi j
  rw [h] at hi
  exact hg i t hi j

theorem goodState_init (s : VMState) : GoodState (init_vm s) := by
  intro i t hi j
  simp [init_vm] at hi

theorem free_phys_page_pt (s : VMState) (p : Int) :
    (free_phys_page s p).page_table = s.page_table := by
  unfold free_phys_page
  split <;> rfl

theorem goodState_map_page (s : VMState) (v f fl : Nat) (hg : GoodState s) :
    GoodState (map_page s v f fl).2 := by
  simp only [map_page]
  split
  · exact hg
  · split
    · exact hg
    · next hf =>
      intro i t hi j
      dsimp only at hi
      by_cases hil : i = (v >>> 4) &&& 0xf
      · subst hil
        rw [Function.update_same] at hi
        injection hi with hti
        subst hti
        by_cases hjl : j = v &&& 0xf
        · subst hjl
          rw [Function.update_same]
          show Int.ofNat f < (NUM_PHYS_PAGES : Int)
          exact Int.ofNat_lt.mpr (by omega)
        · rw [Function.update_noteq hjl]
          cases hpt : s.page_table ((v >>> 4) &&& 0xf) with
          | none =>
            show (-1 : Int) < (NUM_PHYS_PAGES : Int)
            decide
          | some told => exact hg _ told hpt j
      · rw [Function.update_noteq hil] at hi
        exact hg i t hi j

theorem goodState_unmap (s : VMState) (v : Nat) (hg : GoodState s) :
    GoodState (unmap_page s v).2 := by
  simp only [unmap_page]
  split
  · exact hg
  · split
    · exact hg
    · next t0 hpt =>
      intro i t hi j
      dsimp only at hi
      by_cases hil : i = (v >>> 4) &&& 0xf
      · subst hil
        rw [Function.update_same] at hi
        injection hi with hti
        subst hti
        by_cases hjl : j = v &&& 0xf
        · subst hjl
          rw [Function.update_same]
          decide
        · rw [Function.update_noteq hjl]
          exact hg _ t0 hpt j
      · rw [Function.update_noteq hil] at hi
        split at hi
        · rw [free_phys_page_pt] at hi
          exact hg i t hi j
        · exact hg i t hi j

theorem goodState_allocate (s : VMState) (hg : GoodState s) :
    GoodState (allocate_phys_page s).2 :=
  goodState_of_pt s _ (allocate_pt s) hg

theorem goodState_handler (s : VMState) (vp : Nat) (hg : GoodState s) :
    GoodState (page_fault_handler s vp).2 := by
  simp only [page_fault_handler]
  rcases hA : allocate_phys_page { s with page_faults := s.page_faults + 1 } with ⟨pp, s2⟩
  have hg2 : GoodState s2 := by
    have h := goodState_allocate { s with page_faults := s.page_faults + 1 }
      (goodState_of_pt s _ rfl hg)
    rw [hA] at h
    exact h
  simp only [hA]
  split
  · exact hg2
  · exact goodState_map_page s2 vp pp.toNat (PTE_READ ||| PTE_WRITE) hg2

theorem goodState_translate (s : VMState) (vaddr : Nat) (w : Bool) (hg : GoodState s) :
    GoodState (translate s vaddr w).2.2 :=
  goodState_of_pt s _ (translate_pt s vaddr w) hg

theorem goodState_write (s : VMState) (vaddr val : Nat) (hg : GoodState s) :
    GoodState (write_vmem s vaddr val).2 := by
  simp only [write_vmem]
  rcases hT : translate s vaddr true with ⟨res, po, s1⟩
  have hg1 : GoodState s1 := by
    have h := goodState_translate s vaddr true hg
    rw [hT] at h
    exact h
  simp only [hT]
  split
  · rcases hH : page_fault_handler s1 ((vaddr >>> 12) % 65536) with ⟨hc, s2⟩
    have hg2 : GoodState s2 := by
      have h := goodState_handler s1 ((vaddr >>> 12) % 65536) hg1
      rw [hH] at h
      exact h
    simp only [hH]
    split
    · exact hg2
    · rcases hT2 : translate s2 vaddr true with ⟨r2, po2, s3⟩
      have hg3 : GoodState s3 := by
        have h := goodState_translate s2 vaddr true hg2
        rw [hT2] at h
        exact h
      simp only [hT2]
      split
      · exact hg3
      · exact goodState_of_pt s3 _ rfl hg3
  · split
    · exact hg1
    · exact goodState_of_pt s1 _ rfl hg1

theorem goodState_read (s : VMState) (vaddr : Nat) (hg : GoodState s) :
    GoodState (read_vmem s vaddr).2.2 := by
  simp only [read_vmem]
  rcases hT : translate s vaddr false with ⟨res, po, s1⟩
  have hg1 : GoodState s1 := by
    have h := goodState_translate s vaddr false hg
    rw [hT] at h
    exact h
  simp only [hT]
  split
  · rcases hH : page_fault_handler s1 ((vaddr >>> 12) % 65536) with ⟨hc, s2⟩
    have hg2 : GoodState s2 := by
      have h := goodState_handler s1 ((vaddr >>> 12) % 65536) hg1
      rw [hH] at h
      exact h
    simp only [hH]
    split
    · exact hg2
    · rcases hT2 : translate s2 vaddr false with ⟨r2, po2, s3⟩
      have hg3 : GoodState s3 := by
        have h := goodState_translate s2 vaddr false hg2
        rw [hT2] at h
        exact h
      simp only [hT2]
      split
      · exact hg3
      · exact goodState_of_pt s3 _ rfl hg3
  · split
    · exact hg1
    · exact goodState_of_pt s1 _ rfl hg1

theorem goodState_free_pages (s : VMState) (hg : GoodState s) :
    GoodState (free_pages s) := by
  intro i t hi j
  simp only [free_pages] at hi
  split at hi
  · exact absurd hi (by simp)
  · exact hg i t hi j

theorem reachable_good (s : VMState) (h : Reachable s) : GoodState s := by
  induction h with
  | init s0 => exact goodState_init s0
  | map s0 v f fl _ ih => exact goodState_map_page s0 v f fl ih
  | unmap s0 v _ ih => exact goodState_unmap s0 v ih
  | readv s0 a _ ih => exact goodState_read s0 a ih
  | writev s0 a b _ ih => exact goodState_write s0 a b ih
  | transl s0 a w _ ih => exact goodState_translate s0 a w ih
  | teardown s0 _ ih => exact goodState_free_pages s0 ih

theorem goodState_defensive (s : VMState) (hg : GoodState s) (vaddr : Nat) (w : Bool) :
    translateDefensive s vaddr w = false := by
  simp only [translateDefensive]
  split
  · rfl
  · split
    · rfl
    · next t heq =>
      split
      · rfl
      · next h1 =>
        split
        · rfl
        · split
          · rfl
          · apply decide_eq_false
            intro hge
            have hb := hg _ t heq ((vaddr >>> 12) &&& 0xf)
            have hoff : vaddr &&& 0xfff < 4096 := by rw [and_fff]; omega
            rw [NUM_PHYS_PAGES_eq] at hb
            rw [RAM_SIZE_eq, PAGE_SIZE] at hge
            push_neg at h1
            omega

theorem translate_out_lt (s : VMState) (vaddr : Nat) (w : Bool) (p : Nat)
    (h : (translate s vaddr w).2.1 = some p) : p < RAM_SIZE := by
  rcases translate_cases s vaddr w with ⟨c, _, heq⟩ | ⟨q, hq, heq⟩ <;> rw [heq] at h
  · exact absurd h (by simp)
  · simp only at h
    injection h with h
    rwa [← h]

/-! ### Counter monotonicity -/

theorem countersLe_refl (s : VMState) : countersLe s s :=
  ⟨Nat.le_refl _, Nat.le_refl _, Nat.le_refl _, Nat.le_refl _⟩

theorem countersLe_trans {a b c : VMState} (h1 : countersLe a b) (h2 : countersLe b c) :
    countersLe a c :=
  ⟨Nat.le_trans h1.1 h2.1, Nat.le_trans h1.2.1 h2.2.1, Nat.le_trans h1.2.2.1 h2.2.2.1,
    Nat.le_trans h1.2.2.2 h2.2.2.2⟩

theorem countersLe_map (s : VMState) (v f fl : Nat) : countersLe s (map_page s v f fl).2 := by
  obtain ⟨h1, h2, h3, h4⟩ := map_page_counters s v f fl
  exact ⟨h1.ge, h2.ge, h3.ge, h4.ge⟩

theorem countersLe_unmap (s : VMState) (v : Nat) : countersLe s (unmap_page s v).2 := by
  obtain ⟨h1, h2, h3, h4⟩ := unmap_page_counters s v
  exact ⟨h1.ge, h2.ge, h3.ge, h4.ge⟩

theorem countersLe_translate (s : VMState) (vaddr : Nat) (w : Bool) :
    countersLe s (translate s vaddr w).2.2 :=
  ⟨(translate_pf s vaddr w).ge, (translate_reads s vaddr w).ge,
    (translate_writes s vaddr w).ge, translate_tf_le s vaddr w⟩

theorem countersLe_handler (s : VMState) (vp : Nat) :
    countersLe s (page_fault_handler s vp).2 := by
  obtain ⟨h1, h2, h3, h4⟩ := handler_counters s vp
  exact ⟨by omega, h2.ge, h3.ge, h4.ge⟩

theorem countersLe_write (s : VMState) (vaddr val : Nat) :
    countersLe s (write_vmem s vaddr val).2 := by
  simp only [write_vmem]
  rcases hT : translate s vaddr true with ⟨res, po, s1⟩
  have hc1 : countersLe s s1 := by
    have h := countersLe_translate s vaddr true
    rw [hT] at h
    exact h
  simp only [hT]
  split
  · rcases hH : page_fault_handler s1 ((vaddr >>> 12) % 65536) with ⟨hc, s2⟩
    have hc2 : countersLe s1 s2 := by
      have h := countersLe_handler s1 ((vaddr >>> 12) % 65536)
      rw [hH] at h
      exact h
    simp only [hH]
    split
    · exact countersLe_trans hc1 hc2
    · rcases hT2 : translate s2 vaddr true with ⟨r2, po2, s3⟩
      have hc3 : countersLe s2 s3 := by
        have h := countersLe_translate s2 vaddr true
        rw [hT2] at h
        exact h
      simp only [hT2]
      split
      · exact countersLe_trans hc1 (countersLe_trans hc2 hc3)
      · refine countersLe_trans hc1 (countersLe_trans hc2 (countersLe_trans hc3 ?_))
        exact ⟨Nat.le_refl _, Nat.le_refl _, Nat.le_succ _, Nat.le_refl _⟩
  · split
    · exact hc1
    · exact countersLe_trans hc1 ⟨Nat.le_refl _, Nat.le_refl _, Nat.le_succ _, Nat.le_refl _⟩

theorem countersLe_read (s : VMState) (vaddr : Nat) :
    countersLe s (read_vmem s vaddr).2.2 := by
  simp only [read_vmem]
  rcases hT : translate s vaddr false with ⟨res, po, s1⟩
  have hc1 : countersLe s s1 := by
    have h := countersLe_translate s vaddr false
    rw [hT] at h
    exact h
  simp only [hT]
  split
  · rcases hH : page_fault_handler s1 ((vaddr >>> 12) % 65536) with ⟨hc, s2⟩
    have hc2 : countersLe s1 s2 := by
      have h := countersLe_handler s1 ((vaddr >>> 12) % 65536)
      rw [hH] at h
      exact h
    simp only [hH]
    split
    · exact countersLe_trans hc1 hc2
    · rcases hT2 : translate s2 vaddr false with ⟨r2, po2, s3⟩
      have hc3 : countersLe s2 s3 := by
        have h := countersLe_translate s2 vaddr false
        rw [hT2] at h
        exact h
      simp only [hT2]
      split
      · exact countersLe_trans hc1 (countersLe_trans hc2 hc3)
      · refine countersLe_trans hc1 (countersLe_trans hc2 (countersLe_trans hc3 ?_))
        exact ⟨Nat.le_refl _, Nat.le_succ _, Nat.le_refl _, Nat.le_refl _⟩
  · split
    · exact hc1
    · exact countersLe_trans hc1 ⟨Nat.le_refl _, Nat.le_succ _, Nat.le_refl _, Nat.le_refl _⟩

theorem countersLe_free_pages (s : VMState) : countersLe s (free_pages s) :=
  countersLe_refl s

/-! ## Claim theorems -/

/-- C2 counterexample: in the freshly initialised state the second-level
table owning virtual page 0 was never allocated, an index for which the
claim promises no-op success; unmap_page(0) instead returns the error
code −1. -/
theorem C2_counterexample :
    initialState.page_table ((0 >>> 4) &&& 0xf) = none ∧
      (unmap_page initialState 0).1 = -1 ∧ (unmap_page initialState 0).1 ≠ 0 :=
  ⟨rfl, rfl, by decide⟩

/-- C2 (amended): unmap_page returns −1 (not success) both for an
out-of-range virtual page and when the owning second-level table was
never allocated; when the entry references a frame the frame is freed in
the allocator state and the entry is cleared to unmapped, with success
returned. -/
theorem C2_unmap_page (s : VMState) (v : Nat) :
    (L1_ENTRIES * L2_ENTRIES ≤ v → unmap_page s v = (-1, s)) ∧
    (v < L1_ENTRIES * L2_ENTRIES → s.page_table ((v >>> 4) &&& 0xf) = none →
      unmap_page s v = (-1, s)) ∧
    (∀ t, v < L1_ENTRIES * L2_ENTRIES → s.page_table ((v >>> 4) &&& 0xf) = some t →
      0 ≤ (t (v &&& 0xf)).phys_page →
      (t (v &&& 0xf)).phys_page < (NUM_PHYS_PAGES : Int) →
      (unmap_page s v).1 = 0 ∧
      (unmap_page s v).2.phys_pages_used (t (v &&& 0xf)).phys_page.toNat = false ∧
      ∃ t2, (unmap_page s v).2.page_table ((v >>> 4) &&& 0xf) = some t2 ∧
        t2 (v &&& 0xf) = { phys_page := -1, flags := 0 }) := by
  refine ⟨?_, ?_, ?_⟩
  · intro h
    simp only [unmap_page]
    rw [if_pos h]
  · intro hv hn
    simp only [unmap_page]
    rw [if_neg (not_le.mpr hv)]
    simp only [hn]
  · intro t hv ht hpp hbnd
    simp only [unmap_page]
    rw [if_neg (not_le.mpr hv)]
    simp only [ht]
    split
    · simp only [free_phys_page]
      split
      · exact ⟨by trivial, Function.update_same _ _ _,
          ⟨_, Function.update_same _ _ _, Function.update_same _ _ _⟩⟩
      · next hc => exact absurd ⟨hpp, hbnd⟩ hc
    · next hc => exact absurd hpp hc

/-- C2 witness: on a state where virtual page 5 is mapped to frame 9,
unmap_page(5) succeeds, frees frame 9 and clears the entry. -/
theorem C2_unmap_page_witness :
    (unmap_page (map_page initialState 5 9 PTE_READ).2 5).1 = 0 ∧
      (unmap_page (map_page initialState 5 9 PTE_READ).2 5).2.phys_pages_used
        ((Function.update allocate_L2 5
          { phys_page := Int.ofNat 9, flags := PTE_READ ||| PTE_VALID } (5 &&& 0xf)).phys_page.toNat)
        = false ∧
      ∃ t2, (unmap_page (map_page initialState 5 9 PTE_READ).2 5).2.page_table ((5 >>> 4) &&& 0xf)
          = some t2 ∧
        t2 (5 &&& 0xf) = { phys_page := -1, flags := 0 } :=
  (C2_unmap_page (map_page initialState 5 9 PTE_READ).2 5).2.2
    (Function.update allocate_L2 5 { phys_page := Int.ofNat 9, flags := PTE_READ ||| PTE_VALID })
    (by decide) rfl (by decide) (by decide)

/-- C6: allocate_phys_page returns the lowest-indexed free frame when one
exists, marks it used (touching no other bitmap slot), zero-fills exactly
that frame's PAGE_SIZE bytes of RAM, and leaves the page table untouched;
when every frame is used it returns −1 and changes no state. -/
theorem C6_allocate_frame (s : VMState) :
    ((∃ k, k < NUM_PHYS_PAGES ∧ s.phys_pages_used k = false) →
      ∃ j, j < NUM_PHYS_PAGES ∧ s.phys_pages_used j = false ∧
        (∀ k, k < j → s.phys_pages_used k = true) ∧
        (allocate_phys_page s).1 = Int.ofNat j ∧
        (allocate_phys_page s).2.phys_pages_used j = true ∧
        (∀ k, k ≠ j → (allocate_phys_page s).2.phys_pages_used k = s.phys_pages_used k) ∧
        (∀ a, j * PAGE_SIZE ≤ a → a < j * PAGE_SIZE + PAGE_SIZE →
          (allocate_phys_page s).2.ram a = 0) ∧
        (∀ a, a < j * PAGE_SIZE ∨ j * PAGE_SIZE + PAGE_SIZE ≤ a →
          (allocate_phys_page s).2.ram a = s.ram a) ∧
        (allocate_phys_page s).2.page_table = s.page_table) ∧
    ((∀ k, k < NUM_PHYS_PAGES → s.phys_pages_used k = true) →
      allocate_phys_page s = (-1, s)) := by
  constructor
  · intro hfree
    obtain ⟨j, hj, hjf, hmin, hA⟩ := allocate_success s hfree
    refine ⟨j, hj, hjf, hmin, ?_, ?_, ?_, ?_, ?_, ?_⟩
    · rw [hA]
    · rw [hA]
      exact Function.update_same _ _ _
    · intro k hk
      rw [hA]
      exact Function.update_noteq hk _ _
    · intro a h1 h2
      rw [hA]
      dsimp only
      rw [if_pos ⟨h1, h2⟩]
    · intro a hor
      rw [hA]
      dsimp only
      rw [if_neg (by omega)]
    · rw [hA]
  · exact allocate_exhausted s

/-- C6 witness: on the freshly initialised state the allocator hands out
frame 0, the lowest free index. -/
theorem C6_allocate_frame_witness :
    ∃ j, j < NUM_PHYS_PAGES ∧ initialState.phys_pages_used j = false ∧
      (∀ k, k < j → initialState.phys_pages_used k = true) ∧
      (allocate_phys_page initialState).1 = Int.ofNat j ∧
      (allocate_phys_page initialState).2.phys_pages_used j = true ∧
      (∀ k, k ≠ j → (allocate_phys_page initialState).2.phys_pages_used k
        = initialState.phys_pages_used k) ∧
      (∀ a, j * PAGE_SIZE ≤ a → a < j * PAGE_SIZE + PAGE_SIZE →
        (allocate_phys_page initialState).2.ram a = 0) ∧
      (∀ a, a < j * PAGE_SIZE ∨ j * PAGE_SIZE + PAGE_SIZE ≤ a →
        (allocate_phys_page initialState).2.ram a = initialState.ram a) ∧
      (allocate_phys_page initialState).2.page_table = initialState.page_table :=
  (C6_allocate_frame initialState).1 ⟨0, by decide, rfl⟩

/-- C7: map_page fails with −1 and changes no state when the virtual page
or the physical frame is out of range; otherwise it succeeds, installs
the entry with the VALID bit forced on in addition to the caller's
permission bits, marks the target frame used regardless of its prior
state, and leaves RAM and all counters unchanged. -/
theorem C7_map_page (s : VMState) (v f fl : Nat) :
    ((L1_ENTRIES * L2_ENTRIES ≤ v ∨ NUM_PHYS_PAGES ≤ f) → map_page s v f fl = (-1, s)) ∧
    (v < L1_ENTRIES * L2_ENTRIES → f < NUM_PHYS_PAGES →
      (map_page s v f fl).1 = 0 ∧
      (∃ t, (map_page s v f fl).2.page_table ((v >>> 4) &&& 0xf) = some t ∧
        t (v &&& 0xf) = { phys_page := Int.ofNat f, flags := fl ||| PTE_VALID } ∧
        (t (v &&& 0xf)).flags &&& PTE_VALID ≠ 0) ∧
      (map_page s v f fl).2.phys_pages_used f = true ∧
      (map_page s v f fl).2.ram = s.ram ∧
      (map_page s v f fl).2.page_faults = s.page_faults ∧
      (map_page s v f fl).2.reads = s.reads ∧
      (map_page s v f fl).2.writes = s.writes ∧
      (map_page s v f fl).2.translation_failures = s.translation_failures) := by
  constructor
  · intro h
    simp only [map_page]
    rcases h with h | h
    · rw [if_pos h]
    · by_cases h1 : L1_ENTRIES * L2_ENTRIES ≤ v
      · rw [if_pos h1]
      · rw [if_neg h1, if_pos h]
  · intro hv hf
    rw [map_page_success s v f fl hv hf]
    refine ⟨rfl, ⟨_, Function.update_same _ _ _, Function.update_same _ _ _, ?_⟩,
      Function.update_same _ _ _, rfl, rfl, rfl, rfl, rfl⟩
    rw [Function.update_same]
    show (fl ||| PTE_VALID) &&& PTE_VALID ≠ 0
    simp [PTE_VALID, Nat.lor_comm]

/-- C7 witness: an out-of-range virtual page is rejected without any
state change; an in-range call succeeds. -/
theorem C7_map_page_witness :
    map_page initialState 300 0 0 = (-1, initialState) ∧
      (map_page initialState 3 7 PTE_READ).1 = 0 :=
  ⟨(C7_map_page initialState 300 0 0).1 (Or.inl (by decide)),
    ((C7_map_page initialState 3 7 PTE_READ).2 (by decide) (by decide)).1⟩

/-- C8: in every state reachable from a re-initialisation through the
public operations, the defensive InternalInconsistency branch of
translate is unreachable (translateDefensive is false for every address
and direction), and every physical address translate produces is within
RAM_SIZE, so the physical-store access is in bounds. -/
theorem C8_no_internal_inconsistency (s : VMState) (h : Reachable s) :
    ∀ vaddr : Nat, ∀ w : Bool, translateDefensive s vaddr w = false ∧
      ∀ p, (translate s vaddr w).2.1 = some p → p < RAM_SIZE := by
  intro vaddr w
  exact ⟨goodState_defensive s (reachable_good s h) vaddr w,
    fun p hp => translate_out_lt s vaddr w p hp⟩

/-- C8 witness: the defensive branch is not taken for a write probe at
address 4096 in the freshly initialised state. -/
theorem C8_no_internal_inconsistency_witness :
    translateDefensive (init_vm initialState) 4096 true = false :=
  (C8_no_internal_inconsistency (init_vm initialState) (Reachable.init initialState) 4096 true).1

/-- C9: the four statistics counters are monotonically non-decreasing
across map_page, unmap_page, read_vmem, write_vmem, translate and the
free_pages teardown. -/
theorem C9_counters_monotone (s : VMState) (v f fl vaddr val : Nat) (w : Bool) :
    countersLe s (map_page s v f fl).2 ∧
    countersLe s (unmap_page s v).2 ∧
    countersLe s (read_vmem s vaddr).2.2 ∧
    countersLe s (write_vmem s vaddr val).2 ∧
    countersLe s (translate s vaddr w).2.2 ∧
    countersLe s (free_pages s) :=
  ⟨countersLe_map s v f fl, countersLe_unmap s v, countersLe_read s vaddr,
    countersLe_write s vaddr val, countersLe_translate s vaddr w, countersLe_free_pages s⟩

/-- C10: translate mutates nothing but possibly the translation_failures
counter — page table, frame bitmap, RAM and the other three counters are
unchanged — and the out-parameter is written only on success. -/
theorem C10_translate_frame (s : VMState) (vaddr : Nat) (w : Bool) :
    (translate s vaddr w).2.2.page_table = s.page_table ∧
    (translate s vaddr w).2.2.phys_pages_used = s.phys_pages_used ∧
    (translate s vaddr w).2.2.ram = s.ram ∧
    (translate s vaddr w).2.2.page_faults = s.page_faults ∧
    (translate s vaddr w).2.2.reads = s.reads ∧
    (translate s vaddr w).2.2.writes = s.writes ∧
    ((translate s vaddr w).1 = 0 ∨ (translate s vaddr w).2.1 = none) := by
  refine ⟨translate_pt s vaddr w, translate_used s vaddr w, translate_ram s vaddr w,
    translate_pf s vaddr w, translate_reads s vaddr w, translate_writes s vaddr w, ?_⟩
  rcases translate_cases s vaddr w with ⟨c, _, h⟩ | ⟨p, _, h⟩
  · right
    rw [h]
  · left
    rw [h]

/-- C4: a page mapped valid with READ but not WRITE makes write_vmem fail
with the PermissionDenied translation outcome, returning −1 with only the
translation_failures counter bumped — page_faults and the frame bitmap
are untouched, so the fault handler is never invoked; symmetrically a
page mapped valid with WRITE but not READ makes read_vmem fail the same
way without writing the out-parameter. -/
theorem C4_permission_asymmetry (s : VMState) (vaddr val : Nat) (t : Nat → L2Entry)
    (hv : vaddr < RAM_SIZE)
    (ht : s.page_table ((vaddr >>> 16) &&& 0xf) = some t)
    (hpp : 0 ≤ (t ((vaddr >>> 12) &&& 0xf)).phys_page)
    (hvld : (t ((vaddr >>> 12) &&& 0xf)).flags &&& PTE_VALID ≠ 0) :
    ((t ((vaddr >>> 12) &&& 0xf)).flags &&& PTE_READ ≠ 0 →
      (t ((vaddr >>> 12) &&& 0xf)).flags &&& PTE_WRITE = 0 →
      write_vmem s vaddr val = (-1, bump_tf s) ∧
      (write_vmem s vaddr val).2.page_faults = s.page_faults ∧
      (write_vmem s vaddr val).2.phys_pages_used = s.phys_pages_used) ∧
    ((t ((vaddr >>> 12) &&& 0xf)).flags &&& PTE_WRITE ≠ 0 →
      (t ((vaddr >>> 12) &&& 0xf)).flags &&& PTE_READ = 0 →
      read_vmem s vaddr = (-1, none, bump_tf s) ∧
      (read_vmem s vaddr).2.2.page_faults = s.page_faults ∧
      (read_vmem s vaddr).2.2.phys_pages_used = s.phys_pages_used) := by
  constructor
  · intro _ hwd
    have hT := translate_denied s vaddr true t hv ht hpp hvld (Or.inl ⟨rfl, hwd⟩)
    have heq : write_vmem s vaddr val = (-1, bump_tf s) := by
      simp [write_vmem, hT]
    exact ⟨heq, by simp [heq, bump_tf], by simp [heq, bump_tf]⟩
  · intro _ hrd
    have hT := translate_denied s vaddr false t hv ht hpp hvld (Or.inr ⟨rfl, hrd⟩)
    have heq : read_vmem s vaddr = (-1, none, bump_tf s) := by
      simp [read_vmem, hT]
    exact ⟨heq, by simp [heq, bump_tf], by simp [heq, bump_tf]⟩

/-- C4 witness: with virtual page 1 mapped read-only onto frame 20 and
virtual page 2 mapped write-only onto frame 21, a write to page 1 and a
read from page 2 both fail as PermissionDenied with no fault. -/
theorem C4_permission_asymmetry_witness :
    write_vmem (map_page (map_page initialState 1 20 PTE_READ).2 2 21 PTE_WRITE).2 0x1032 0xdd
      = (-1, bump_tf (map_page (map_page initialState 1 20 PTE_READ).2 2 21 PTE_WRITE).2) ∧
    read_vmem (map_page (map_page initialState 1 20 PTE_READ).2 2 21 PTE_WRITE).2 0x2100
      = (-1, none, bump_tf (map_page (map_page initialState 1 20 PTE_READ).2 2 21 PTE_WRITE).2) :=
  ⟨((C4_permission_asymmetry
      (map_page (map_page initialState 1 20 PTE_READ).2 2 21 PTE_WRITE).2 0x1032 0xdd
      (Function.update
        (Function.update allocate_L2 1 { phys_page := Int.ofNat 20, flags := PTE_READ ||| PTE_VALID })
        2 { phys_page := Int.ofNat 21, flags := PTE_WRITE ||| PTE_VALID })
      (by decide) rfl (by decide) (by decide)).1 (by decide) (by decide)).1,
   ((C4_permission_asymmetry
      (map_page (map_page initialState 1 20 PTE_READ).2 2 21 PTE_WRITE).2 0x2100 0
      (Function.update
        (Function.update allocate_L2 1 { phys_page := Int.ofNat 20, flags := PTE_READ ||| PTE_VALID })
        2 { phys_page := Int.ofNat 21, flags := PTE_WRITE ||| PTE_VALID })
      (by decide) rfl (by decide) (by decide)).2 (by decide) (by decide)).1⟩

/-- C5: after map_page(p, f, READ|WRITE) succeeds, writing a byte at any
address inside page p and reading the same address back succeeds and
returns the written byte. -/
theorem C5_round_trip (s : VMState) (p f b vaddr : Nat)
    (hp : p < L1_ENTRIES * L2_ENTRIES) (hf : f < NUM_PHYS_PAGES) (hb : b < 256)
    (hpage : vaddr >>> 12 = p) :
    (map_page s p f (PTE_READ ||| PTE_WRITE)).1 = 0 ∧
    (write_vmem (map_page s p f (PTE_READ ||| PTE_WRITE)).2 vaddr b).1 = 0 ∧
    (read_vmem (write_vmem (map_page s p f (PTE_READ ||| PTE_WRITE)).2 vaddr b).2 vaddr).1 = 0 ∧
    (read_vmem (write_vmem (map_page s p f (PTE_READ ||| PTE_WRITE)).2 vaddr b).2 vaddr).2.1
      = some b := by
  have h256 : L1_ENTRIES * L2_ENTRIES = 256 := rfl
  have hv : vaddr < RAM_SIZE := by
    rw [RAM_SIZE_eq]
    rw [h256] at hp
    omega
  have hl1 : (p >>> 4) &&& 0xf = (vaddr >>> 16) &&& 0xf := by
    rw [← hpage]
    exact vp_l1 vaddr
  have hl2 : p &&& 0xf = (vaddr >>> 12) &&& 0xf := by rw [hpage]
  have hm := map_page_success s p f (PTE_READ ||| PTE_WRITE) hp hf
  have hS1 : (map_page s p f (PTE_READ ||| PTE_WRITE)).2.page_table ((vaddr >>> 16) &&& 0xf)
      = some (Function.update ((s.page_table ((p >>> 4) &&& 0xf)).getD allocate_L2) (p &&& 0xf)
          { phys_page := Int.ofNat f, flags := (PTE_READ ||| PTE_WRITE) ||| PTE_VALID }) := by
    rw [hm, ← hl1]
    exact Function.update_same _ _ _
  have hEnt : Function.update ((s.page_table ((p >>> 4) &&& 0xf)).getD allocate_L2) (p &&& 0xf)
      { phys_page := Int.ofNat f, flags := (PTE_READ ||| PTE_WRITE) ||| PTE_VALID }
      ((vaddr >>> 12) &&& 0xf)
      = { phys_page := Int.ofNat f, flags := (PTE_READ ||| PTE_WRITE) ||| PTE_VALID } := by
    rw [← hl2]
    exact Function.update_same _ _ _
  have hwrite := write_vmem_hit (map_page s p f (PTE_READ ||| PTE_WRITE)).2 vaddr b _ hv hS1
    (by rw [hEnt]; exact Int.natCast_nonneg f)
    (by rw [hEnt]; show Int.ofNat f < (NUM_PHYS_PAGES : Int); exact Int.ofNat_lt.mpr hf)
    (by rw [hEnt]; show ((PTE_READ ||| PTE_WRITE) ||| PTE_VALID) &&& PTE_WRITE ≠ 0; decide)
    (by rw [hEnt]; show ((PTE_READ ||| PTE_WRITE) ||| PTE_VALID) &&& PTE_VALID ≠ 0; decide)
  have hS2 : (write_vmem (map_page s p f (PTE_READ ||| PTE_WRITE)).2 vaddr b).2.page_table
      ((vaddr >>> 16) &&& 0xf)
      = some (Function.update ((s.page_table ((p >>> 4) &&& 0xf)).getD allocate_L2) (p &&& 0xf)
          { phys_page := Int.ofNat f, flags := (PTE_READ ||| PTE_WRITE) ||| PTE_VALID }) := by
    rw [hwrite]
    exact hS1
  have hread := read_vmem_hit (write_vmem (map_page s p f (PTE_READ ||| PTE_WRITE)).2 vaddr b).2
    vaddr _ hv hS2
    (by rw [hEnt]; exact Int.natCast_nonneg f)
    (by rw [hEnt]; show Int.ofNat f < (NUM_PHYS_PAGES : Int); exact Int.ofNat_lt.mpr hf)
    (by rw [hEnt]; show ((PTE_READ ||| PTE_WRITE) ||| PTE_VALID) &&& PTE_READ ≠ 0; decide)
    (by rw [hEnt]; show ((PTE_READ ||| PTE_WRITE) ||| PTE_VALID) &&& PTE_VALID ≠ 0; decide)
  refine ⟨by rw [hm], by rw [hwrite], by rw [hread], ?_⟩
  rw [hread, hwrite]
  exact congrArg some (Function.update_same _ _ _)

/-- C5 witness: mapping page 0 to frame 42 read-write, then writing 0xab
at address 0x510 and reading it back, returns 0xab. -/
theorem C5_round_trip_witness :
    (map_page initialState 0 42 (PTE_READ ||| PTE_WRITE)).1 = 0 ∧
    (write_vmem (map_page initialState 0 42 (PTE_READ ||| PTE_WRITE)).2 0x510 0xab).1 = 0 ∧
    (read_vmem (write_vmem (map_page initialState 0 42 (PTE_READ ||| PTE_WRITE)).2 0x510 0xab).2
      0x510).1 = 0 ∧
    (read_vmem (write_vmem (map_page initialState 0 42 (PTE_READ ||| PTE_WRITE)).2 0x510 0xab).2
      0x510).2.1 = some 0xab :=
  C5_round_trip initialState 0 42 0xab 0x510 (by decide) (by decide) (by decide) (by decide)

/-- C3: a write to a never-mapped page (with a free frame available)
succeeds and increments page_faults by exactly one, and every subsequent
read or write anywhere in the same page succeeds with zero additional
page faults. -/
theorem C3_demand_paging (s : VMState) (vaddr val : Nat)
    (hv : vaddr < RAM_SIZE)
    (hmiss : s.page_table ((vaddr >>> 16) &&& 0xf) = none ∨
      ∃ t, s.page_table ((vaddr >>> 16) &&& 0xf) = some t ∧
        ((t ((vaddr >>> 12) &&& 0xf)).phys_page < 0 ∨
          (t ((vaddr >>> 12) &&& 0xf)).flags &&& PTE_VALID = 0))
    (hfree : ∃ k, k < NUM_PHYS_PAGES ∧ s.phys_pages_used k = false) :
    (write_vmem s vaddr val).1 = 0 ∧
    (write_vmem s vaddr val).2.page_faults = s.page_faults + 1 ∧
    ∀ vaddr2 val2, vaddr2 >>> 12 = vaddr >>> 12 →
      (read_vmem (write_vmem s vaddr val).2 vaddr2).1 = 0 ∧
      (read_vmem (write_vmem s vaddr val).2 vaddr2).2.2.page_faults
        = (write_vmem s vaddr val).2.page_faults ∧
      (write_vmem (write_vmem s vaddr val).2 vaddr2 val2).1 = 0 ∧
      (write_vmem (write_vmem s vaddr val).2 vaddr2 val2).2.page_faults
        = (write_vmem s vaddr val).2.page_faults := by
  obtain ⟨st, hw, hpf, j, t, hj, hpt, hent⟩ := write_vmem_miss_success s vaddr val hv hmiss hfree
  have hst : (write_vmem s vaddr val).2 = st := by rw [hw]
  refine ⟨by rw [hw], by rw [hst]; exact hpf, ?_⟩
  intro vaddr2 val2 hsame
  have hv2 : vaddr2 < RAM_SIZE := by
    rw [RAM_SIZE_eq] at hv ⊢
    omega
  have hl1 := same_page_l1 vaddr2 vaddr hsame
  have hl2 : (vaddr2 >>> 12) &&& 0xf = (vaddr >>> 12) &&& 0xf := by rw [hsame]
  have hpt2 : (write_vmem s vaddr val).2.page_table ((vaddr2 >>> 16) &&& 0xf) = some t := by
    rw [hst, hl1]
    exact hpt
  have hent2 : t ((vaddr2 >>> 12) &&& 0xf)
      = { phys_page := Int.ofNat j, flags := (PTE_READ ||| PTE_WRITE) ||| PTE_VALID } := by
    rw [hl2]
    exact hent
  have hread := read_vmem_hit (write_vmem s vaddr val).2 vaddr2 t hv2 hpt2
    (by rw [hent2]; exact Int.natCast_nonneg j)
    (by rw [hent2]; show Int.ofNat j < (NUM_PHYS_PAGES : Int); exact Int.ofNat_lt.mpr hj)
    (by rw [hent2]; show ((PTE_READ ||| PTE_WRITE) ||| PTE_VALID) &&& PTE_READ ≠ 0; decide)
    (by rw [hent2]; show ((PTE_READ ||| PTE_WRITE) ||| PTE_VALID) &&& PTE_VALID ≠ 0; decide)
  have hwrite2 := write_vmem_hit (write_vmem s vaddr val).2 vaddr2 val2 t hv2 hpt2
    (by rw [hent2]; exact Int.natCast_nonneg j)
    (by rw [hent2]; show Int.ofNat j < (NUM_PHYS_PAGES : Int); exact Int.ofNat_lt.mpr hj)
    (by rw [hent2]; show ((PTE_READ ||| PTE_WRITE) ||| PTE_VALID) &&& PTE_WRITE ≠ 0; decide)
    (by rw [hent2]; show ((PTE_READ ||| PTE_WRITE) ||| PTE_VALID) &&& PTE_VALID ≠ 0; decide)
  refine ⟨by rw [hread], by rw [hread], by rw [hwrite2], by rw [hwrite2]⟩

/-- C3 witness: the first write to never-mapped page 5 faults once; a
read elsewhere in page 5 afterwards adds no fault. -/
theorem C3_demand_paging_witness :
    (write_vmem initialState 0x5000 0xbb).1 = 0 ∧
    (write_vmem initialState 0x5000 0xbb).2.page_faults = initialState.page_faults + 1 ∧
    (read_vmem (write_vmem initialState 0x5000 0xbb).2 0x5abc).1 = 0 ∧
    (read_vmem (write_vmem initialState 0x5000 0xbb).2 0x5abc).2.2.page_faults
      = (write_vmem initialState 0x5000 0xbb).2.page_faults := by
  have h := C3_demand_paging initialState 0x5000 0xbb (by decide) (Or.inl rfl)
    ⟨0, by decide, rfl⟩
  exact ⟨h.1, h.2.1, (h.2.2 0x5abc 0 (by decide)).1, (h.2.2 0x5abc 0 (by decide)).2.1⟩

/-- C1 counterexample: a write at address RAM_SIZE (the first address
past the virtual space) does invoke the fault handler — page_faults goes
from 0 to 1 and the allocator marks frame 0 used — although the claim
says an access at an address ≥ RAM_SIZE must do neither. -/
theorem C1_counterexample :
    (write_vmem initialState RAM_SIZE 171).2.page_faults = initialState.page_faults + 1 ∧
    initialState.phys_pages_used 0 = false ∧
    (write_vmem initialState RAM_SIZE 171).2.phys_pages_used 0 = true ∧
    (write_vmem initialState RAM_SIZE 171).1 = -1 := by
  refine ⟨by decide, rfl, by decide, by decide⟩

/-- C1 (amended): the access routines invoke the fault handler exactly
when the initial translate returns the code −1 — which covers
TranslationMiss but also an out-of-bounds virtual address — and then
retranslate once, so page_faults rises by exactly one; on PermissionDenied
(code −2) the failure is returned immediately with no fault and no retry,
only translation_failures changing; in particular an access at an address
≥ RAM_SIZE fails with −1 yet still increments page_faults by one. -/
theorem C1_retry_protocol (s : VMState) (vaddr val : Nat) :
    ((translate s vaddr true).1 = -1 →
      (write_vmem s vaddr val).2.page_faults = s.page_faults + 1) ∧
    ((translate s vaddr false).1 = -1 →
      (read_vmem s vaddr).2.2.page_faults = s.page_faults + 1) ∧
    ((translate s vaddr true).1 = -2 →
      write_vmem s vaddr val = (-1, (translate s vaddr true).2.2) ∧
      (write_vmem s vaddr val).2.page_faults = s.page_faults) ∧
    ((translate s vaddr false).1 = -2 →
      read_vmem s vaddr = (-1, none, (translate s vaddr false).2.2) ∧
      (read_vmem s vaddr).2.2.page_faults = s.page_faults) ∧
    (RAM_SIZE ≤ vaddr →
      (write_vmem s vaddr val).1 = -1 ∧
      (write_vmem s vaddr val).2.page_faults = s.page_faults + 1) := by
  refine ⟨write_vmem_retry_pf s vaddr val, read_vmem_retry_pf s vaddr, ?_, ?_, ?_⟩
  · intro h
    rcases translate_cases s vaddr true with ⟨c, _, heq⟩ | ⟨p, _, heq⟩
    · rw [heq] at h
      simp only at h
      subst h
      have heqw : write_vmem s vaddr val = (-1, bump_tf s) := by
        simp [write_vmem, heq]
      constructor
      · rw [heqw, heq]
      · simp [heqw, bump_tf]
    · rw [heq] at h
      simp only at h
      exact absurd h (by decide)
  · intro h
    rcases translate_cases s vaddr false with ⟨c, _, heq⟩ | ⟨p, _, heq⟩
    · rw [heq] at h
      simp only at h
      subst h
      have heqr : read_vmem s vaddr = (-1, none, bump_tf s) := by
        simp [read_vmem, heq]
      constructor
      · rw [heqr, heq]
      · simp [heqr, bump_tf]
    · rw [heq] at h
      simp only at h
      exact absurd h (by decide)
  · intro hge
    have hT : translate s vaddr true = (-1, none, bump_tf s) := by
      simp only [translate]
      rw [if_pos hge]
    refine ⟨?_, write_vmem_retry_pf s vaddr val (by rw [hT])⟩
    simp only [write_vmem, hT]
    simp only [if_true]
    rcases hH : page_fault_handler (bump_tf s) ((vaddr >>> 12) % 65536) with ⟨hc, s2⟩
    simp only [hH]
    split
    · rfl
    · have hT2 : translate s2 vaddr true = (-1, none, bump_tf s2) := by
        simp only [translate]
        rw [if_pos hge]
      simp only [hT2]
      norm_num

/-- C1 witness: the first translate at address 0x5000 on the initial
state misses with code −1, and the write then faults exactly once. -/
theorem C1_retry_protocol_witness :
    (write_vmem initialState 0x5000 0xbb).2.page_faults = initialState.page_faults + 1 ∧
    (write_vmem initialState RAM_SIZE 0xbb).1 = -1 :=
  ⟨(C1_retry_protocol initialState 0x5000 0xbb).1 (by decide),
    ((C1_retry_protocol initialState RAM_SIZE 0xbb).2.2.2.2 (by decide)).1⟩

end VMSim
